import Mathlib

/-!
Shallow embedding of the C agent-based epidemic simulator (src/Makefile,
first translation unit, together with the declarations in src/c/abm.h).

Machine integers (`uint64_t`, `size_t`) are modelled as `Nat` with explicit
reduction modulo `2 ^ 64` wherever the C code can wrap.  The C `double`
values produced by `rng_double` are the dyadic rationals `k / 32768` with
`k < 32768`, which doubles represent exactly, so probabilities and their
comparisons are modelled over `ℚ` without loss.
-/

attribute [local semireducible] Rat.mul Rat.add Rat.sub Rat.inv

namespace Abm

/-- Width modulus of the C `uint64_t` / `size_t` types. -/
def W : Nat := 2 ^ 64

/-- Translation of `struct rng` (abm.h): the generator state is a 64-bit seed.
(The `from_file` flag only influences `rng_init` and is not part of the
stream state.) -/
structure rng_t where
  seed : Nat
  deriving DecidableEq, Repr

/-- Translation of `rng_init` (src/Makefile lines 58-66): the seed is the
replica identity, scaled by 500000 in `from_file` mode. -/
def rng_init (seed : Nat) (from_file : Bool) : rng_t :=
  if from_file = false then ⟨seed % W⟩ else ⟨seed * 500000 % W⟩

/-- Translation of the LCG modulus `m = 32768` (src/Makefile line 68). -/
def m : Nat := 32768

/-- One advance of the LCG state: `rng->seed = rng->seed * 1103515245 + 12345`
in `uint64_t` arithmetic (src/Makefile line 73). -/
def rngStep (r : rng_t) : rng_t := ⟨(r.seed * 1103515245 + 12345) % W⟩

/-- Translation of `rng_uint64_t` (src/Makefile lines 70-75): advance the seed
and return `(seed / 65536) % m` together with the advanced state. -/
def rng_uint64_t (r : rng_t) : Nat × rng_t :=
  let r' := rngStep r
  ((r'.seed / 65536) % m, r')

/-- Translation of `rng_to` (src/Makefile lines 77-82): `rng_uint64_t % max`.
The C function asserts `max > 0`; the Lean function is total, and the
assertion is modelled separately by `shuffle_rng_to_maxes` below, which
records the `max` arguments actually passed by `shuffle`. -/
def rng_to (r : rng_t) (max : Nat) : Nat × rng_t :=
  let vr := rng_uint64_t r
  (vr.1 % max, vr.2)

/-- Translation of `rng_double` (src/Makefile lines 85-89):
`(double) rng_uint64_t(rng) / m`.  The numerator is below `2 ^ 15` and
`m = 2 ^ 15`, so the double quotient is exact and modelled in `ℚ`. -/
def rng_double (r : rng_t) : ℚ × rng_t :=
  let vr := rng_uint64_t r
  ((vr.1 : ℚ) / (m : ℚ), vr.2)

/-- Translation of `enum state` (abm.h). -/
inductive state_t where
  | SUSCEPTIBLE
  | INFECTIOUS
  | RECOVERED
  | VACCINATED
  | DEAD
  deriving DecidableEq, Repr

open state_t

/-- Translation of `struct agent` (abm.h). -/
structure agent_t where
  identity : Nat
  state : state_t
  deriving DecidableEq, Repr

instance : Inhabited agent_t := ⟨⟨0, SUSCEPTIBLE⟩⟩

/-- Translation of `new_agent` (src/Makefile lines 111-116). -/
def new_agent (identity : Nat) (state : state_t) : agent_t :=
  ⟨identity, state⟩

/-- Translation of `enum infection_method` (abm.h). -/
inductive infection_method_t where
  | BOTH
  | ONE
  | TWO
  deriving DecidableEq, Repr

/-- Translation of `struct parameters` (abm.h).  The `agent_filename` string
is an output path with no bearing on the embedded semantics and is omitted;
probabilities and the growth rate are the exact rational values of the C
doubles. -/
structure parameters_t where
  simulations : Nat
  identity : Nat
  iterations : Nat
  agents : Nat
  infectious : Nat
  encounters : Nat
  growth : ℚ
  death_prob_susceptible : ℚ
  death_prob_infectious : ℚ
  recovery_prob : ℚ
  vaccination_prob : ℚ
  regression_prob : ℚ
  infection_method : infection_method_t
  output_agents : Nat
  random_file : Bool
  deriving DecidableEq, Repr

/-- Translation of `struct simulation` (abm.h).  The C array of `capacity`
allocated slots whose first `size` entries are live is modelled by the list
`agents` of exactly the live entries (so `size = agents.length`) together
with the `capacity` counter, which the code updates separately. -/
structure simulation_t where
  identity : Nat
  agents : List agent_t
  capacity : Nat
  total_infections : Nat
  infection_deaths : Nat
  parameters : parameters_t
  rng : rng_t
  deriving DecidableEq, Repr

/-- Translation of the body of the swap in `shuffle` (src/Makefile lines
122-124): `agents[j]` receives the old `agents[i]` and vice versa. -/
def swapL (l : List agent_t) (i j : Nat) : List agent_t :=
  (l.set i (l.getD j default)).set j (l.getD i default)

/-- Translation of the `shuffle` loop (src/Makefile lines 120-125), with the
loop index `i` (counting down to 1) as the recursion argument: at index
`i + 1` the code draws `j = rng_to(rng, i + 2)` and swaps positions `i + 1`
and `j`. -/
def shuffleLoop : Nat → List agent_t → rng_t → List agent_t × rng_t
  | 0, l, r => (l, r)
  | i + 1, l, r =>
      let jr := rng_to r (i + 2)
      shuffleLoop i (swapL l (i + 1) jr.1) jr.2

/-- Translation of `shuffle(agents, n, rng)` with `n` the list length.  For
`n ≥ 1` the C loop runs `i` from `n - 1` down to `1`, which is what
`shuffleLoop (n - 1)` performs.  For `n = 0` the C `size_t` index underflows
and the program dies on the `rng_to` assertion; that behaviour is modelled
exactly by `shuffle_rng_to_maxes` below, and `new_simulation` only reaches
this function with `n ≥ 1` when `parameters.agents ≥ 1`. -/
def shuffle (l : List agent_t) (r : rng_t) : List agent_t × rng_t :=
  shuffleLoop (l.length - 1) l r

/-- Value of the `size_t` loop index `i = n - 1` on entry to the `shuffle`
loop, with `uint64` wraparound: for `n = 0` this underflows to `2 ^ 64 - 1`. -/
def shuffle_first_index (n : Nat) : Nat := (n + (W - 1)) % W

/-- List of the `max` arguments that the `shuffle` loop passes to `rng_to`,
with the C `size_t` arithmetic: while `i > 0` the body calls
`rng_to(rng, i + 1)` (the addition taken modulo `2 ^ 64`) and then decrements
`i`.  The list is cut at the first `max` equal to `0`, because the assertion
`max > 0` inside `rng_to` aborts the program there. -/
def shuffle_maxes_loop : Nat → List Nat
  | 0 => []
  | i + 1 =>
      let mx := (i + 2) % W
      if mx = 0 then [0] else mx :: shuffle_maxes_loop i

/-- The `rng_to` bounds requested by `shuffle` on a population of size `n`. -/
def shuffle_rng_to_maxes (n : Nat) : List Nat :=
  shuffle_maxes_loop (shuffle_first_index n)

/-- Translation of `count_if_state` (src/Makefile lines 128-135). -/
def count_if_state (l : List agent_t) (st : state_t) : Nat :=
  l.countP (fun a => a.state == st)

/-- Translation of `count_if_not_state` (src/Makefile lines 137-141). -/
def count_if_not_state (l : List agent_t) (st : state_t) : Nat :=
  l.length - count_if_state l st

/-- Translation of `struct statistics` (abm.h). -/
structure statistics_t where
  susceptible : Nat
  infectious : Nat
  recovered : Nat
  vaccinated : Nat
  dead : Nat
  deriving DecidableEq, Repr

/-- Translation of `get_stats` (src/Makefile lines 143-152). -/
def get_stats (l : List agent_t) : statistics_t :=
  { susceptible := count_if_state l SUSCEPTIBLE
    infectious := count_if_state l INFECTIOUS
    recovered := count_if_state l RECOVERED
    vaccinated := count_if_state l VACCINATED
    dead := count_if_state l DEAD }

/-- Translation of the loop `for (i = 0; i < infectious; i++)
agents[i].state = INFECTIOUS` in `new_simulation` (src/Makefile lines
173-174).  The C loop requires `infectious ≤ size` (otherwise it writes out
of bounds); the model stops at the end of the list. -/
def set_first_infectious : List agent_t → Nat → List agent_t
  | l, 0 => l
  | [], _ + 1 => []
  | a :: rest, k + 1 => { a with state := INFECTIOUS } :: set_first_infectious rest k

/-- Translation of `new_simulation` (src/Makefile lines 155-178): seed the
RNG from the identity, allocate `max 10 (agents * 3 / 2)` slots, create
`agents` susceptible agents with identities `0, 1, ...`, shuffle them, make
the first `infectious` of them infectious, and seed the counters. -/
def new_simulation (identity : Nat) (p : parameters_t) : simulation_t :=
  let rng0 := rng_init identity p.random_file
  let n0 := p.agents * 3 / 2
  let cap := if n0 < 10 then 10 else n0
  let init := (List.range p.agents).map (fun i => new_agent i SUSCEPTIBLE)
  let sr := shuffle init rng0
  let ags := set_first_infectious sr.1 p.infectious
  { identity := identity
    agents := ags
    capacity := cap
    total_infections := p.infectious
    infection_deaths := 0
    parameters := p
    rng := sr.2 }

/-- Translation of C `round` for the nonnegative values `growth * live_count`
used by `grow` (round half away from zero; the floor is `num.fdiv den`). -/
def roundC (q : ℚ) : Int :=
  if q < 0 then -(Int.fdiv (-q + 1 / 2).num (-q + 1 / 2).den)
  else Int.fdiv (q + 1 / 2).num (q + 1 / 2).den

/-- Translation of `grow` (src/Makefile lines 181-200): count the non-dead
agents, append `round(growth * num_agents)` fresh susceptible agents with
identities starting at the old size, and, when the appended agents exceed
the capacity, update the capacity by the source's `capacity *= 3 / 2` —
whose right-hand side is the C integer division `3 / 2 = 1`.  A negative
`new_agents` cannot arise for `growth ≥ 0`, the only meaningful range of a
growth rate, so the `Int.toNat` below is exact in every intended run. -/
def grow (s : simulation_t) : simulation_t :=
  let num_agents := count_if_not_state s.agents DEAD
  let new_agents := (roundC (s.parameters.growth * (num_agents : ℚ))).toNat
  let cap :=
    if s.agents.length + new_agents > s.capacity then s.capacity * (3 / 2)
    else s.capacity
  let fresh := (List.range new_agents).map
    (fun k => new_agent (s.agents.length + k) SUSCEPTIBLE)
  { s with agents := s.agents ++ fresh, capacity := cap }

/-- Translation of the loop of `infect_method_one` (src/Makefile lines
209-221), recursing on the number of remaining encounters: draw two indices
with `rng_to(rng, size)`, and if one agent is susceptible and the other
infectious, make the susceptible one infectious and count the infection. -/
def infect_one_loop : Nat → simulation_t → simulation_t
  | 0, s => s
  | k + 1, s =>
      let d1 := rng_to s.rng s.agents.length
      let d2 := rng_to d1.2 s.agents.length
      let a1 := s.agents.getD d1.1 default
      let a2 := s.agents.getD d2.1 default
      let s' :=
        if a1.state = SUSCEPTIBLE ∧ a2.state = INFECTIOUS then
          { s with agents := s.agents.set d1.1 { a1 with state := INFECTIOUS }
                   total_infections := s.total_infections + 1
                   rng := d2.2 }
        else if a1.state = INFECTIOUS ∧ a2.state = SUSCEPTIBLE then
          { s with agents := s.agents.set d2.1 { a2 with state := INFECTIOUS }
                   total_infections := s.total_infections + 1
                   rng := d2.2 }
        else { s with rng := d2.2 }
      infect_one_loop k s'

/-- Translation of `infect_method_one` (src/Makefile lines 207-222). -/
def infect_method_one (s : simulation_t) : simulation_t :=
  infect_one_loop s.parameters.encounters s

/-- Translation of the loop of `get_indices` (src/Makefile lines 234-240)
with running position `i`: the loop breaks as soon as `i ≥ max` and collects
the positions among the first `max` whose agent is in the given state. -/
def get_indices_go (st : state_t) (max : Nat) : Nat → List agent_t → List Nat
  | _, [] => []
  | i, a :: rest =>
      if max ≤ i then []
      else if a.state = st then i :: get_indices_go st max (i + 1) rest
      else get_indices_go st max (i + 1) rest

/-- Translation of `get_indices` (src/Makefile lines 224-241), returning the
collected index list (the C out-parameters `indices` and `n` are the list
and its length). -/
def get_indices (l : List agent_t) (st : state_t) (max : Nat) : List Nat :=
  get_indices_go st max 0 l

/-- Translation of the final loop of `infect_method_two` (src/Makefile lines
252-257): for each collected index position `i` (in order), if the agent now
at position `i` of the shuffled population is infectious, set the agent at
position `indices[i]` to infectious and count an infection. -/
def infect_two_loop : Nat → List Nat → simulation_t → simulation_t
  | _, [], s => s
  | i, idx :: rest, s =>
      let s' :=
        if (s.agents.getD i default).state = INFECTIOUS then
          { s with
              agents := s.agents.set idx
                { s.agents.getD idx default with state := INFECTIOUS }
              total_infections := s.total_infections + 1 }
        else s
      infect_two_loop (i + 1) rest s'

/-- Translation of `infect_method_two` (src/Makefile lines 243-259): collect
up to `encounters` pre-shuffle positions of susceptible agents, shuffle the
whole population, then run the infection loop over the collected positions. -/
def infect_method_two (s : simulation_t) : simulation_t :=
  let indices := get_indices s.agents SUSCEPTIBLE s.parameters.encounters
  let sr := shuffle s.agents s.rng
  infect_two_loop 0 indices { s with agents := sr.1, rng := sr.2 }

/-- Common shape of `recover`, `vaccinate` and `susceptible` (src/Makefile
lines 261-292): one linear pass; for each agent satisfying the eligibility
test draw `rng_double` and, when it is below the probability, move the agent
to the target state.  Only eligible agents consume a draw, exactly as in the
C loops. -/
def bern_map (elig : agent_t → Bool) (tgt : state_t) (p : ℚ) :
    List agent_t → rng_t → List agent_t × rng_t
  | [], r => ([], r)
  | a :: rest, r =>
      if elig a then
        let vr := rng_double r
        let a' := if vr.1 < p then { a with state := tgt } else a
        let res := bern_map elig tgt p rest vr.2
        (a' :: res.1, res.2)
      else
        let res := bern_map elig tgt p rest r
        (a :: res.1, res.2)

/-- Translation of `recover` (src/Makefile lines 261-270). -/
def recover (s : simulation_t) : simulation_t :=
  let res := bern_map (fun a => a.state == INFECTIOUS) RECOVERED
    s.parameters.recovery_prob s.agents s.rng
  { s with agents := res.1, rng := res.2 }

/-- Translation of `vaccinate` (src/Makefile lines 272-281). -/
def vaccinate (s : simulation_t) : simulation_t :=
  let res := bern_map (fun a => a.state == SUSCEPTIBLE) VACCINATED
    s.parameters.vaccination_prob s.agents s.rng
  { s with agents := res.1, rng := res.2 }

/-- Translation of `susceptible` (src/Makefile lines 283-292). -/
def susceptible (s : simulation_t) : simulation_t :=
  let res := bern_map (fun a => a.state == VACCINATED || a.state == RECOVERED)
    SUSCEPTIBLE s.parameters.regression_prob s.agents s.rng
  { s with agents := res.1, rng := res.2 }

/-- Translation of the loop of `die` (src/Makefile lines 299-311): a
susceptible agent dies with probability `death_prob_susceptible`; an
infectious agent dies with probability `death_prob_infectious` and such a
death is additionally counted.  The result is the new agent list, the new
RNG state and the number of infectious deaths in the pass. -/
def die_loop (ps pI : ℚ) : List agent_t → rng_t → List agent_t × rng_t × Nat
  | [], r => ([], r, 0)
  | a :: rest, r =>
      if a.state = SUSCEPTIBLE then
        let vr := rng_double r
        let a' := if vr.1 < ps then { a with state := DEAD } else a
        let res := die_loop ps pI rest vr.2
        (a' :: res.1, res.2.1, res.2.2)
      else if a.state = INFECTIOUS then
        let vr := rng_double r
        if vr.1 < pI then
          let res := die_loop ps pI rest vr.2
          ({ a with state := DEAD } :: res.1, res.2.1, res.2.2 + 1)
        else
          let res := die_loop ps pI rest vr.2
          (a :: res.1, res.2.1, res.2.2)
      else
        let res := die_loop ps pI rest r
        (a :: res.1, res.2.1, res.2.2)

/-- Translation of `die` (src/Makefile lines 297-312). -/
def die (s : simulation_t) : simulation_t :=
  let res := die_loop s.parameters.death_prob_susceptible
    s.parameters.death_prob_infectious s.agents s.rng
  { s with agents := res.1, rng := res.2.1
           infection_deaths := s.infection_deaths + res.2.2 }

/-- Translation of the infection-method selection in `simulate`
(src/Makefile lines 370-380): `BOTH` alternates by replica parity. -/
def infect (s : simulation_t) : simulation_t :=
  if s.parameters.infection_method = infection_method_t.BOTH then
    if s.identity % 2 = 0 then infect_method_one s else infect_method_two s
  else if s.parameters.infection_method = infection_method_t.ONE then
    infect_method_one s
  else infect_method_two s

/-- Translation of `print_agents`' effect on the simulation state
(src/Makefile line 323): the population is sorted in place by identity.
`qsort` is unstable, but the identities of distinct list positions are
distinct in every run, so the identity-sorted order is unique and equals the
merge sort below. -/
def sort_agents (s : simulation_t) : simulation_t :=
  { s with agents := s.agents.mergeSort (fun a b => a.identity ≤ b.identity) }

/-- Translation of the state effect of `report` (src/Makefile lines
355-358): when agent output is enabled and the iteration is a positive
multiple of `output_agents`, `print_agents` sorts the population. -/
def report_effect (s : simulation_t) (iteration : Nat) : simulation_t :=
  if 0 < s.parameters.output_agents ∧ 0 < iteration ∧
      iteration % s.parameters.output_agents = 0 then
    sort_agents s
  else s

/-- Events of one pass of the `simulate` loop body (src/Makefile lines
369-384), in their fixed order. -/
def do_events (s : simulation_t) : simulation_t :=
  die (susceptible (vaccinate (recover (infect (grow s)))))

/-- One pass of the `simulate` loop with loop index `i` (src/Makefile lines
368-387), including the state effect of the conditional mid-run report. -/
def loop_step (i : Nat) (s : simulation_t) : simulation_t :=
  let s6 := do_events s
  if i ≠ 0 ∧ i % 100 = 0 then report_effect s6 i else s6

/-- State at the end of tick `t`: the `simulate` loop passes with indices
`0, ..., t - 1` applied to the initial state. -/
def run_ticks (s : simulation_t) : Nat → simulation_t
  | 0 => s
  | t + 1 => loop_step t (run_ticks s t)

/-- One line of the shared standard-output sink: the CSV header printed by
`report_header` (src/Makefile lines 339-342) or a tally row printed by
`report` (src/Makefile lines 345-359). -/
inductive line_t where
  | header
  | tally (fields : List Nat)
  deriving DecidableEq, Repr

/-- Test for the header line. -/
def is_header : line_t → Bool
  | line_t.header => true
  | line_t.tally _ => false

/-- Fields of the tally row printed by `report` (src/Makefile lines
350-353): replica identity, iteration, the five state counts, and the two
cumulative counters. -/
def report_line (s : simulation_t) (iteration : Nat) : List Nat :=
  let st := get_stats s.agents
  [s.identity, iteration, st.susceptible, st.infectious, st.recovered,
    st.vaccinated, st.dead, s.total_infections, s.infection_deaths]

/-- Tally line emitted inside the `simulate` loop pass with index `i`
(src/Makefile lines 385-386): only when `i ≠ 0` and `i % 100 = 0`, and
computed from the state after the events of the pass. -/
def loop_emit (i : Nat) (s : simulation_t) : List line_t :=
  if i ≠ 0 ∧ i % 100 = 0 then [line_t.tally (report_line (do_events s) i)]
  else []

/-- Lines emitted by the first `t` passes of the `simulate` loop. -/
def loop_lines (s : simulation_t) : Nat → List line_t
  | 0 => []
  | t + 1 => loop_lines s t ++ loop_emit t (run_ticks s t)

/-- Translation of the output of `simulate` (src/Makefile lines 364-389):
the header if and only if the replica identity is 0, the tick-0 tally, the
mid-run tallies, and the final tally at iteration `iterations`. -/
def simulate_lines (s : simulation_t) : List line_t :=
  (if s.identity = 0 then [line_t.header] else []) ++
    [line_t.tally (report_line s 0)] ++
    loop_lines s s.parameters.iterations ++
    [line_t.tally (report_line (run_ticks s s.parameters.iterations)
      s.parameters.iterations)]

/-- The agent with identity `x` is present in the population and dead. -/
def deadAt (l : List agent_t) (x : Nat) : Prop :=
  ∃ a ∈ l, a.identity = x ∧ a.state = DEAD

instance (l : List agent_t) (x : Nat) : Decidable (deadAt l x) :=
  List.decidableBEx _ l

/-- The replica with this identity and these parameters runs
`infect_method_one` on every tick: selector `ONE`, or selector `BOTH` with an
even identity (src/Makefile lines 370-380). -/
def uses_method_one (identity : Nat) (p : parameters_t) : Prop :=
  p.infection_method = infection_method_t.ONE ∨
    (p.infection_method = infection_method_t.BOTH ∧ identity % 2 = 0)

/-- The RNG state after `n` advances of the LCG. -/
def rngIter (r : rng_t) : Nat → rng_t
  | 0 => r
  | n + 1 => rngStep (rngIter r n)

/-- The first `n` outputs of `rng_uint64_t` from a given state. -/
def rng_stream (r : rng_t) : Nat → List Nat
  | 0 => []
  | n + 1 =>
      let vr := rng_uint64_t r
      vr.1 :: rng_stream vr.2 n

/-- Modelled from the claim's words for C4 (and spec section 4.3): scan the
population in current order collecting indices of agents in the given state,
stopping only once `max` indices have been collected or the population is
exhausted — that is, the first `max` matching positions.  This is the
statement to compare `get_indices` against; the code's own scan is
`get_indices` above. -/
def get_indices_spec (l : List agent_t) (st : state_t) (max : Nat) : List Nat :=
  ((List.range l.length).filter (fun i => (l.getD i default).state == st)).take max

/-- Parameters of the method-TWO replica used for concrete runs: six agents,
three initially infectious, four encounters, infectious death probability
1/2, every other per-tick probability 0, two iterations. -/
def pTwo : parameters_t :=
  { simulations := 1
    identity := 0
    iterations := 2
    agents := 6
    infectious := 3
    encounters := 4
    growth := 0
    death_prob_susceptible := 0
    death_prob_infectious := 1/2
    recovery_prob := 0
    vaccination_prob := 0
    regression_prob := 0
    infection_method := infection_method_t.TWO
    output_agents := 0
    random_file := false }

/-- Parameters of the method-ONE replica used for concrete runs: four
agents, two initially infectious, two encounters, infectious death
probability 1, every other per-tick probability 0, two iterations. -/
def pOne : parameters_t :=
  { pTwo with
    agents := 4
    infectious := 2
    encounters := 2
    death_prob_infectious := 1
    infection_method := infection_method_t.ONE }

/-- Parameters with no agents at all, for the C10 assertion analysis. -/
def pZero : parameters_t := { pTwo with agents := 0, infectious := 0 }

/-- Parameters that make the very first `grow` outgrow the allocation: ten
agents (so capacity 15) and growth rate 1 (ten new agents on tick one). -/
def pGrow : parameters_t :=
  { pTwo with agents := 10, infectious := 0, growth := 1 }

/-- Parameters with zero encounters, for the encounters-0 case of C7. -/
def pNoEnc : parameters_t := { pOne with encounters := 0 }

/-- C8: `next_real()` equals `next_uint()` divided by the modulus, and since
`next_uint()` is always strictly below the modulus the result lies in
[0, 1). -/
theorem C8_rng_double_unit_interval (r : rng_t) :
    (rng_double r).1 = ((rng_uint64_t r).1 : ℚ) / (m : ℚ) ∧
    (rng_uint64_t r).1 < m ∧
    0 ≤ (rng_double r).1 ∧ (rng_double r).1 < 1 := by
  have hlt : (rng_uint64_t r).1 < m := Nat.mod_lt _ (by norm_num [m])
  refine ⟨rfl, hlt, ?_, ?_⟩
  · exact div_nonneg (Nat.cast_nonneg _) (by norm_num [m])
  · show ((rng_uint64_t r).1 : ℚ) / (m : ℚ) < 1
    rw [div_lt_one (by norm_num [m])]
    exact_mod_cast hlt

/-- C3 (code bug): with ten initial agents the allocation holds 15 slots, and
a growth rate of 1 appends ten agents on the first `grow`; the source's
`capacity *= 3 / 2` is an integer-division no-op (factor 1), so the capacity
stays 15 while the size becomes 20, violating `size ≤ capacity`. -/
theorem C3_grow_breaks_capacity_invariant :
    (grow (new_simulation 0 pGrow)).capacity = 15 ∧
    (grow (new_simulation 0 pGrow)).agents.length = 20 ∧
    ¬ ((grow (new_simulation 0 pGrow)).agents.length ≤
        (grow (new_simulation 0 pGrow)).capacity) := by decide

/-- C4 counterexample: on the population [Infectious, Susceptible,
Susceptible] with `encounters = 2`, the code's scan examines only positions
0 and 1 and collects the single index 1, whereas a scan that stops only once
two indices are collected or the population is exhausted would collect
[1, 2]. -/
theorem C4_counterexample :
    get_indices
        [new_agent 0 INFECTIOUS, new_agent 1 SUSCEPTIBLE, new_agent 2 SUSCEPTIBLE]
        SUSCEPTIBLE 2 = [1] ∧
    get_indices_spec
        [new_agent 0 INFECTIOUS, new_agent 1 SUSCEPTIBLE, new_agent 2 SUSCEPTIBLE]
        SUSCEPTIBLE 2 = [1, 2] ∧
    get_indices
        [new_agent 0 INFECTIOUS, new_agent 1 SUSCEPTIBLE, new_agent 2 SUSCEPTIBLE]
        SUSCEPTIBLE 2 ≠
      get_indices_spec
        [new_agent 0 INFECTIOUS, new_agent 1 SUSCEPTIBLE, new_agent 2 SUSCEPTIBLE]
        SUSCEPTIBLE 2 := by decide

/-- C1 counterexample: in the method-TWO replica with identity 30 and
parameters `pTwo`, the agent with identity 2 is Dead at the end of tick 1
but no longer Dead at the end of tick 2 — `infect_method_two` applies its
pre-shuffle susceptible positions to the post-shuffle array and so may set a
Dead agent back to Infectious. -/
theorem C1_counterexample :
    deadAt (run_ticks (new_simulation 30 pTwo) 1).agents 2 ∧
    ¬ deadAt (run_ticks (new_simulation 30 pTwo) 2).agents 2 := by decide

/-- C5 counterexample: in the same replica, at the final reporting point
(iteration 2 = `pTwo.iterations`) the dead count is 1 while
`infection_deaths` is 2: the claimed inequality fails because a dead agent
was revived by `infect_method_two`. -/
theorem C5_counterexample :
    count_if_state (run_ticks (new_simulation 30 pTwo) pTwo.iterations).agents DEAD = 1 ∧
    (run_ticks (new_simulation 30 pTwo) pTwo.iterations).infection_deaths = 2 ∧
    ¬ ((run_ticks (new_simulation 30 pTwo) pTwo.iterations).infection_deaths ≤
        count_if_state (run_ticks (new_simulation 30 pTwo) pTwo.iterations).agents DEAD) := by
  decide

/-- C2: the generator output stream is a function of the seed alone, and the
whole tally-line output of a replica is a function of its identity and
parameters alone, so two runs of the same replica produce identical line
sequences and in particular identical final tallies. -/
theorem C2_determinism :
    (∀ r₁ r₂ : rng_t, r₁.seed = r₂.seed → ∀ n, rng_stream r₁ n = rng_stream r₂ n) ∧
    (∀ identity p s₁ s₂, s₁ = new_simulation identity p → s₂ = new_simulation identity p →
      simulate_lines s₁ = simulate_lines s₂ ∧
      report_line (run_ticks s₁ s₁.parameters.iterations) s₁.parameters.iterations =
        report_line (run_ticks s₂ s₂.parameters.iterations) s₂.parameters.iterations) := by
  constructor
  · intro r₁ r₂ h n
    cases r₁
    cases r₂
    simp only [rng_t.mk.injEq] at *
    subst h
    rfl
  · intro identity p s₁ s₂ h₁ h₂
    subst h₁
    subst h₂
    exact ⟨rfl, rfl⟩

/-- Witness for C2 at seed 7 and at the concrete replica (0, pOne). -/
theorem C2_determinism_witness :
    rng_stream ⟨7⟩ 3 = rng_stream ⟨7⟩ 3 ∧
    simulate_lines (new_simulation 0 pOne) = simulate_lines (new_simulation 0 pOne) :=
  ⟨C2_determinism.1 ⟨7⟩ ⟨7⟩ rfl 3,
   (C2_determinism.2 0 pOne (new_simulation 0 pOne) (new_simulation 0 pOne) rfl rfl).1⟩

theorem shuffle_first_index_zero : shuffle_first_index 0 = W - 1 := by
  norm_num [shuffle_first_index, W]

theorem shuffle_maxes_loop_top : shuffle_maxes_loop (W - 1) = [0] := by
  have h : W - 1 = (W - 2) + 1 := by norm_num [W]
  have h2 : ((W - 2) + 2) % W = 0 := by norm_num [W]
  rw [h, shuffle_maxes_loop, h2]
  simp

theorem shuffle_maxes_loop_pos :
    ∀ i, i ≤ W - 2 → ∀ mx ∈ shuffle_maxes_loop i, 0 < mx := by
  have hW : W = 18446744073709551616 := by norm_num [W]
  intro i
  induction i with
  | zero =>
      intro _ mx hmx
      simp [shuffle_maxes_loop] at hmx
  | succ k ih =>
      intro hk mx hmx
      simp only [shuffle_maxes_loop] at hmx
      rw [Nat.mod_eq_of_lt (by omega)] at hmx
      rw [if_neg (by omega)] at hmx
      rcases List.mem_cons.mp hmx with h | h
      · omega
      · exact ih (by omega) mx h

/-- C10: with `parameters.agents = 0`, the shuffle in `new_simulation`
underflows its `size_t` loop index to `2^64 - 1` (which passes the `i > 0`
loop test) and its first — and, because the program aborts, only — `rng_to`
call receives `max = 0`, violating the assertion `max > 0`; with any
`agents ≥ 1` every `max` passed to `rng_to` is positive. -/
theorem C10_shuffle_assertion (p : parameters_t) :
    (p.agents = 0 →
      0 < shuffle_first_index p.agents ∧ shuffle_rng_to_maxes p.agents = [0]) ∧
    (1 ≤ p.agents → p.agents < W →
      ∀ mx ∈ shuffle_rng_to_maxes p.agents, 0 < mx) := by
  have hW : W = 18446744073709551616 := by norm_num [W]
  constructor
  · intro h
    rw [h]
    refine ⟨?_, ?_⟩
    · rw [shuffle_first_index_zero]
      omega
    · rw [shuffle_rng_to_maxes, shuffle_first_index_zero, shuffle_maxes_loop_top]
  · intro h1 h2 mx hmx
    have hfi : shuffle_first_index p.agents = p.agents - 1 := by
      rw [shuffle_first_index, hW]
      omega
    rw [shuffle_rng_to_maxes, hfi] at hmx
    exact shuffle_maxes_loop_pos _ (by omega) mx hmx

/-- Witness for C10 at the zero-agent parameters and at `pTwo` (6 agents). -/
theorem C10_shuffle_assertion_witness :
    (0 < shuffle_first_index pZero.agents ∧ shuffle_rng_to_maxes pZero.agents = [0]) ∧
    (∀ mx ∈ shuffle_rng_to_maxes pTwo.agents, 0 < mx) :=
  ⟨(C10_shuffle_assertion pZero).1 rfl,
   (C10_shuffle_assertion pTwo).2 (by decide) (by decide)⟩

theorem infect_one_loop_parameters (k : Nat) :
    ∀ s, (infect_one_loop k s).parameters = s.parameters := by
  induction k with
  | zero => intro s; rfl
  | succ k ih =>
      intro s
      simp only [infect_one_loop, ih]
      split
      · rfl
      · split <;> rfl

theorem infect_one_loop_identity (k : Nat) :
    ∀ s, (infect_one_loop k s).identity = s.identity := by
  induction k with
  | zero => intro s; rfl
  | succ k ih =>
      intro s
      simp only [infect_one_loop, ih]
      split
      · rfl
      · split <;> rfl

theorem infect_two_loop_parameters (idx : List Nat) :
    ∀ i s, (infect_two_loop i idx s).parameters = s.parameters := by
  induction idx with
  | nil => intro i s; rfl
  | cons j rest ih =>
      intro i s
      simp only [infect_two_loop, ih]
      split <;> rfl

theorem infect_two_loop_identity (idx : List Nat) :
    ∀ i s, (infect_two_loop i idx s).identity = s.identity := by
  induction idx with
  | nil => intro i s; rfl
  | cons j rest ih =>
      intro i s
      simp only [infect_two_loop, ih]
      split <;> rfl

theorem infect_parameters (s : simulation_t) : (infect s).parameters = s.parameters := by
  simp only [infect]
  split
  · split
    · exact infect_one_loop_parameters _ _
    · simp only [infect_method_two, infect_two_loop_parameters]
  · split
    · exact infect_one_loop_parameters _ _
    · simp only [infect_method_two, infect_two_loop_parameters]

theorem infect_identity (s : simulation_t) : (infect s).identity = s.identity := by
  simp only [infect]
  split
  · split
    · exact infect_one_loop_identity _ _
    · simp only [infect_method_two, infect_two_loop_identity]
  · split
    · exact infect_one_loop_identity _ _
    · simp only [infect_method_two, infect_two_loop_identity]

theorem do_events_parameters (s : simulation_t) :
    (do_events s).parameters = s.parameters := by
  simp only [do_events, die, susceptible, vaccinate, recover, infect_parameters, grow]

theorem do_events_identity (s : simulation_t) :
    (do_events s).identity = s.identity := by
  simp only [do_events, die, susceptible, vaccinate, recover, infect_identity, grow]

theorem loop_step_parameters (i : Nat) (s : simulation_t) :
    (loop_step i s).parameters = s.parameters := by
  simp only [loop_step]
  split
  · simp only [report_effect]
    split
    · simp only [sort_agents, do_events_parameters]
    · exact do_events_parameters s
  · exact do_events_parameters s

theorem loop_step_identity (i : Nat) (s : simulation_t) :
    (loop_step i s).identity = s.identity := by
  simp only [loop_step]
  split
  · simp only [report_effect]
    split
    · simp only [sort_agents, do_events_identity]
    · exact do_events_identity s
  · exact do_events_identity s

theorem run_ticks_parameters (s : simulation_t) :
    ∀ t, (run_ticks s t).parameters = s.parameters := by
  intro t
  induction t with
  | zero => rfl
  | succ t ih => rw [run_ticks, loop_step_parameters, ih]

theorem run_ticks_identity (s : simulation_t) :
    ∀ t, (run_ticks s t).identity = s.identity := by
  intro t
  induction t with
  | zero => rfl
  | succ t ih => rw [run_ticks, loop_step_identity, ih]

theorem infect_eq_method_one (s : simulation_t)
    (h : uses_method_one s.identity s.parameters) :
    infect s = infect_method_one s := by
  rcases h with h | ⟨h1, h2⟩
  · rw [infect]
    rw [if_neg (by rw [h]; intro hc; cases hc), if_pos h]
  · rw [infect, if_pos h1, if_pos h2]

theorem infect_one_loop_TI (k : Nat) :
    ∀ s, s.total_infections ≤ (infect_one_loop k s).total_infections ∧
      (infect_one_loop k s).total_infections ≤ s.total_infections + k := by
  induction k with
  | zero => intro s; exact ⟨le_refl _, Nat.le_add_right _ 0⟩
  | succ k ih =>
      intro s
      simp only [infect_one_loop]
      constructor
      · split
        · refine le_trans ?_ (ih _).1
          exact Nat.le_succ _
        · split
          · refine le_trans ?_ (ih _).1
            exact Nat.le_succ _
          · refine le_trans ?_ (ih _).1
            exact le_of_eq rfl
      · split
        · refine le_trans (ih _).2 ?_
          show s.total_infections + 1 + k ≤ s.total_infections + (k + 1)
          omega
        · split
          · refine le_trans (ih _).2 ?_
            show s.total_infections + 1 + k ≤ s.total_infections + (k + 1)
            omega
          · refine le_trans (ih _).2 ?_
            show s.total_infections + k ≤ s.total_infections + (k + 1)
            omega

theorem infect_two_loop_TI (idx : List Nat) :
    ∀ i s, s.total_infections ≤ (infect_two_loop i idx s).total_infections := by
  induction idx with
  | nil => intro i s; exact le_refl _
  | cons j rest ih =>
      intro i s
      simp only [infect_two_loop]
      split
      · refine le_trans ?_ (ih _ _)
        exact Nat.le_succ _
      · exact ih _ _

theorem infect_method_one_TI (s : simulation_t) :
    s.total_infections ≤ (infect_method_one s).total_infections :=
  (infect_one_loop_TI _ s).1

theorem infect_method_two_TI (s : simulation_t) :
    s.total_infections ≤ (infect_method_two s).total_infections := by
  simp only [infect_method_two]
  refine le_trans ?_ (infect_two_loop_TI _ 0 _)
  exact le_of_eq rfl

theorem infect_TI (s : simulation_t) :
    s.total_infections ≤ (infect s).total_infections := by
  simp only [infect]
  split
  · split
    · exact infect_method_one_TI s
    · exact infect_method_two_TI s
  · split
    · exact infect_method_one_TI s
    · exact infect_method_two_TI s

theorem do_events_TI (s : simulation_t) :
    s.total_infections ≤ (do_events s).total_infections :=
  infect_TI (grow s)

theorem loop_step_TI (i : Nat) (s : simulation_t) :
    s.total_infections ≤ (loop_step i s).total_infections := by
  simp only [loop_step]
  split
  · simp only [report_effect]
    split
    · exact do_events_TI s
    · exact do_events_TI s
  · exact do_events_TI s

theorem run_ticks_TI_mono (s : simulation_t) (t t' : Nat) (h : t ≤ t') :
    (run_ticks s t).total_infections ≤ (run_ticks s t').total_infections := by
  obtain ⟨d, rfl⟩ := Nat.exists_eq_add_of_le h
  clear h
  induction d with
  | zero => exact le_refl _
  | succ d ih =>
      have he : t + (d + 1) = (t + d) + 1 := rfl
      rw [he, run_ticks]
      exact le_trans ih (loop_step_TI _ _)

/-- C6: `total_infections` is seeded with the initial infectious count by
`new_simulation`, no event ever decreases it, and along any run it stays at
or above the initial infectious count. -/
theorem C6_total_infections_monotone :
    (∀ identity p, (new_simulation identity p).total_infections = p.infectious) ∧
    (∀ s : simulation_t, s.total_infections ≤ (grow s).total_infections) ∧
    (∀ s : simulation_t, s.total_infections ≤ (infect_method_one s).total_infections) ∧
    (∀ s : simulation_t, s.total_infections ≤ (infect_method_two s).total_infections) ∧
    (∀ s : simulation_t, s.total_infections ≤ (recover s).total_infections) ∧
    (∀ s : simulation_t, s.total_infections ≤ (vaccinate s).total_infections) ∧
    (∀ s : simulation_t, s.total_infections ≤ (susceptible s).total_infections) ∧
    (∀ s : simulation_t, s.total_infections ≤ (die s).total_infections) ∧
    (∀ i s, s.total_infections ≤ (loop_step i s).total_infections) ∧
    (∀ identity p t t', t ≤ t' →
      (run_ticks (new_simulation identity p) t).total_infections ≤
        (run_ticks (new_simulation identity p) t').total_infections) ∧
    (∀ identity p t,
      p.infectious ≤ (run_ticks (new_simulation identity p) t).total_infections) := by
  refine ⟨fun _ _ => rfl, fun s => le_refl _, infect_method_one_TI, infect_method_two_TI,
    fun s => le_refl _, fun s => le_refl _, fun s => le_refl _, fun s => le_refl _,
    loop_step_TI, fun identity p t t' h => run_ticks_TI_mono _ t t' h, ?_⟩
  intro identity p t
  have h0 : (run_ticks (new_simulation identity p) 0).total_infections = p.infectious := rfl
  rw [← h0]
  exact run_ticks_TI_mono _ 0 t (Nat.zero_le t)

/-- Witness for C6, at the concrete method-TWO replica (30, pTwo). -/
theorem C6_total_infections_monotone_witness :
    (run_ticks (new_simulation 30 pTwo) 1).total_infections ≤
      (run_ticks (new_simulation 30 pTwo) 2).total_infections ∧
    pTwo.infectious ≤ (run_ticks (new_simulation 30 pTwo) 2).total_infections :=
  ⟨C6_total_infections_monotone.2.2.2.2.2.2.2.2.2.1 30 pTwo 1 2 (by decide),
   C6_total_infections_monotone.2.2.2.2.2.2.2.2.2.2 30 pTwo 2⟩

theorem rngIter_step (r : rng_t) : ∀ n, rngIter (rngStep r) n = rngIter r (n + 1) := by
  intro n
  induction n with
  | zero => simp [rngIter]
  | succ n ih =>
      simp only [rngIter]
      rw [ih]
      simp only [rngIter]

theorem infect_one_loop_rng (k : Nat) :
    ∀ s, (infect_one_loop k s).rng = rngIter s.rng (2 * k) := by
  induction k with
  | zero => intro s; rfl
  | succ k ih =>
      intro s
      simp only [infect_one_loop]
      have goal2 : ∀ r : rng_t, rngIter (rngStep (rngStep r)) (2 * k) = rngIter r (2 * (k + 1)) := by
        intro r
        rw [rngIter_step, rngIter_step]
        congr 1
      split
      · rw [ih]
        exact goal2 s.rng
      · split
        · rw [ih]
          exact goal2 s.rng
        · rw [ih]
          exact goal2 s.rng

/-- C7: on every tick in which method A runs on a nonempty population it
advances the RNG by exactly `2 * encounters` draws (one pair per
encounter), increases `total_infections` by at most `encounters`, and with
`encounters = 0` it changes nothing at all. -/
theorem C7_method_one_encounter_bound (s : simulation_t) (h : 0 < s.agents.length) :
    (infect_method_one s).rng = rngIter s.rng (2 * s.parameters.encounters) ∧
    (infect_method_one s).total_infections ≤
      s.total_infections + s.parameters.encounters ∧
    (s.parameters.encounters = 0 → infect_method_one s = s) := by
  refine ⟨infect_one_loop_rng _ s, (infect_one_loop_TI _ s).2, ?_⟩
  intro h0
  rw [infect_method_one, h0]
  simp only [infect_one_loop]

/-- Witness for C7 at the concrete replica (0, pOne) and, for the
zero-encounters case, at (0, pNoEnc). -/
theorem C7_method_one_encounter_bound_witness :
    (infect_method_one (new_simulation 0 pOne)).rng =
      rngIter (new_simulation 0 pOne).rng
        (2 * (new_simulation 0 pOne).parameters.encounters) ∧
    infect_method_one (new_simulation 0 pNoEnc) = new_simulation 0 pNoEnc :=
  ⟨(C7_method_one_encounter_bound (new_simulation 0 pOne) (by decide)).1,
   (C7_method_one_encounter_bound (new_simulation 0 pNoEnc) (by decide)).2.2 rfl⟩

theorem deadAt_set (l : List agent_t) (i : Nat) (b : agent_t) (x : Nat)
    (hd : deadAt l x) (hi : ∀ h : i < l.length, l[i].state ≠ DEAD) :
    deadAt (l.set i b) x := by
  obtain ⟨a, ha, hid, hst⟩ := hd
  obtain ⟨k, hk, hak⟩ := List.mem_iff_getElem.mp ha
  have hne : i ≠ k := by
    intro he
    subst he
    exact hi hk (by rw [hak, hst])
  have hk2 : k < (l.set i b).length := by
    rw [List.length_set]
    exact hk
  refine ⟨(l.set i b).get ⟨k, hk2⟩, List.get_mem _ _ _, ?_, ?_⟩
  · rw [List.get_eq_getElem, List.getElem_set_ne hne _, hak, hid]
  · rw [List.get_eq_getElem, List.getElem_set_ne hne _, hak, hst]

theorem bern_map_deadAt (elig : agent_t → Bool) (tgt : state_t) (p : ℚ)
    (hel : ∀ a : agent_t, a.state = DEAD → elig a = false) :
    ∀ (l : List agent_t) (r : rng_t) (x : Nat),
      deadAt l x → deadAt (bern_map elig tgt p l r).1 x := by
  intro l
  induction l with
  | nil =>
      intro r x hd
      obtain ⟨a, ha, _, _⟩ := hd
      cases ha
  | cons a rest ih =>
      intro r x hd
      obtain ⟨b, hb, hid, hst⟩ := hd
      rcases List.mem_cons.mp hb with rfl | hbr
      · simp only [bern_map, hel b hst]
        exact ⟨b, List.mem_cons_self _ _, hid, hst⟩
      · by_cases he : elig a = true
        · simp only [bern_map, he, if_true]
          obtain ⟨c, hc, hcid, hcst⟩ := ih _ x ⟨b, hbr, hid, hst⟩
          exact ⟨c, List.mem_cons_of_mem _ hc, hcid, hcst⟩
        · simp only [bern_map, he, if_false]
          obtain ⟨c, hc, hcid, hcst⟩ := ih _ x ⟨b, hbr, hid, hst⟩
          exact ⟨c, List.mem_cons_of_mem _ hc, hcid, hcst⟩

theorem die_loop_deadAt (ps pI : ℚ) :
    ∀ (l : List agent_t) (r : rng_t) (x : Nat),
      deadAt l x → deadAt (die_loop ps pI l r).1 x := by
  intro l
  induction l with
  | nil =>
      intro r x hd
      obtain ⟨a, ha, _, _⟩ := hd
      cases ha
  | cons a rest ih =>
      intro r x hd
      obtain ⟨b, hb, hid, hst⟩ := hd
      rcases List.mem_cons.mp hb with rfl | hbr
      · simp only [die_loop, hst]
        exact ⟨b, by simp [hst], hid, hst⟩
      · simp only [die_loop]
        split
        · obtain ⟨c, hc, hcid, hcst⟩ := ih _ x ⟨b, hbr, hid, hst⟩
          exact ⟨c, List.mem_cons_of_mem _ hc, hcid, hcst⟩
        · split
          · split
            · obtain ⟨c, hc, hcid, hcst⟩ := ih _ x ⟨b, hbr, hid, hst⟩
              exact ⟨c, List.mem_cons_of_mem _ hc, hcid, hcst⟩
            · obtain ⟨c, hc, hcid, hcst⟩ := ih _ x ⟨b, hbr, hid, hst⟩
              exact ⟨c, List.mem_cons_of_mem _ hc, hcid, hcst⟩
          · obtain ⟨c, hc, hcid, hcst⟩ := ih _ x ⟨b, hbr, hid, hst⟩
            exact ⟨c, List.mem_cons_of_mem _ hc, hcid, hcst⟩

theorem infect_one_loop_deadAt (k : Nat) :
    ∀ s x, deadAt s.agents x → deadAt (infect_one_loop k s).agents x := by
  induction k with
  | zero => intro s x hd; exact hd
  | succ k ih =>
      intro s x hd
      simp only [infect_one_loop]
      split
      · rename_i hcond
        refine ih _ x ?_
        refine deadAt_set _ _ _ x hd ?_
        intro hlt
        have hsub := hcond.1
        rw [List.getD_eq_getElem s.agents default hlt] at hsub
        rw [hsub]
        decide
      · split
        · rename_i hcond
          refine ih _ x ?_
          refine deadAt_set _ _ _ x hd ?_
          intro hlt
          have hsub := hcond.2
          rw [List.getD_eq_getElem s.agents default hlt] at hsub
          rw [hsub]
          decide
        · refine ih _ x ?_
          exact hd

theorem grow_deadAt (s : simulation_t) (x : Nat) (hd : deadAt s.agents x) :
    deadAt (grow s).agents x := by
  obtain ⟨a, ha, hid, hst⟩ := hd
  exact ⟨a, List.mem_append_left _ ha, hid, hst⟩

theorem recover_deadAt (s : simulation_t) (x : Nat) (hd : deadAt s.agents x) :
    deadAt (recover s).agents x :=
  bern_map_deadAt _ _ _ (fun a h => by rw [h]; rfl) s.agents s.rng x hd

theorem vaccinate_deadAt (s : simulation_t) (x : Nat) (hd : deadAt s.agents x) :
    deadAt (vaccinate s).agents x :=
  bern_map_deadAt _ _ _ (fun a h => by rw [h]; rfl) s.agents s.rng x hd

theorem susceptible_deadAt (s : simulation_t) (x : Nat) (hd : deadAt s.agents x) :
    deadAt (susceptible s).agents x :=
  bern_map_deadAt _ _ _ (fun a h => by rw [h]; rfl) s.agents s.rng x hd

theorem die_deadAt (s : simulation_t) (x : Nat) (hd : deadAt s.agents x) :
    deadAt (die s).agents x :=
  die_loop_deadAt _ _ s.agents s.rng x hd

theorem sort_agents_deadAt (s : simulation_t) (x : Nat) (hd : deadAt s.agents x) :
    deadAt (sort_agents s).agents x := by
  obtain ⟨a, ha, hid, hst⟩ := hd
  exact ⟨a, ((List.mergeSort_perm s.agents _).mem_iff).mpr ha, hid, hst⟩

theorem loop_step_deadAt (i : Nat) (s : simulation_t)
    (hm : uses_method_one s.identity s.parameters) (x : Nat)
    (hd : deadAt s.agents x) : deadAt (loop_step i s).agents x := by
  have h1 : deadAt (grow s).agents x := grow_deadAt s x hd
  have h2 : deadAt (infect (grow s)).agents x := by
    rw [infect_eq_method_one (grow s) hm]
    exact infect_one_loop_deadAt _ _ x h1
  have h6 : deadAt (do_events s).agents x :=
    die_deadAt _ x (susceptible_deadAt _ x (vaccinate_deadAt _ x (recover_deadAt _ x h2)))
  simp only [loop_step]
  split
  · simp only [report_effect]
    split
    · exact sort_agents_deadAt _ x h6
    · exact h6
  · exact h6

/-- C1 (amended): Dead is absorbing on every run whose replica uses
infection method A on each tick — selector `ONE`, or selector `BOTH` with an
even replica identity.  (Under method B a Dead agent can return to
Infectious; see the counterexample.) -/
theorem C1_dead_absorbing_method_one (identity : Nat) (p : parameters_t)
    (hm : uses_method_one identity p) (t t' x : Nat) (htt : t ≤ t')
    (hd : deadAt (run_ticks (new_simulation identity p) t).agents x) :
    deadAt (run_ticks (new_simulation identity p) t').agents x := by
  obtain ⟨d, rfl⟩ := Nat.exists_eq_add_of_le htt
  clear htt
  induction d with
  | zero => exact hd
  | succ d ih =>
      have he : t + (d + 1) = (t + d) + 1 := rfl
      rw [he, run_ticks]
      refine loop_step_deadAt _ _ ?_ x ih
      rw [run_ticks_identity, run_ticks_parameters]
      exact hm

/-- Witness for the amended C1: in the method-ONE replica (0, pOne) the
agent with identity 1 is Dead at the end of tick 1 and hence also at the
end of tick 2. -/
theorem C1_dead_absorbing_method_one_witness :
    deadAt (run_ticks (new_simulation 0 pOne) 2).agents 1 :=
  C1_dead_absorbing_method_one 0 pOne (Or.inl rfl) 1 2 1 (by decide) (by decide)

theorem count_dead_set (l : List agent_t) :
    ∀ (i : Nat) (b : agent_t),
      (∀ h : i < l.length, l[i].state ≠ DEAD) → b.state ≠ DEAD →
      count_if_state (l.set i b) DEAD = count_if_state l DEAD := by
  induction l with
  | nil => intro i b _ _; rfl
  | cons a rest ih =>
      intro i b h1 h2
      cases i with
      | zero =>
          have ha : a.state ≠ DEAD := by
            have := h1 (by simp)
            simpa using this
          rw [List.set_cons_zero]
          simp only [count_if_state, List.countP_cons]
          rw [beq_eq_false_iff_ne.mpr h2, beq_eq_false_iff_ne.mpr ha]
      | succ i =>
          rw [List.set_cons_succ]
          simp only [count_if_state, List.countP_cons]
          have hrest : ∀ h : i < rest.length, rest[i].state ≠ DEAD := by
            intro h
            have := h1 (by simpa using Nat.succ_lt_succ h)
            simpa using this
          have := ih i b hrest h2
          simp only [count_if_state] at this
          rw [this]

theorem bern_map_count_dead (elig : agent_t → Bool) (tgt : state_t) (p : ℚ)
    (hel : ∀ a : agent_t, elig a = true → a.state ≠ DEAD) (htgt : tgt ≠ DEAD) :
    ∀ (l : List agent_t) (r : rng_t),
      count_if_state (bern_map elig tgt p l r).1 DEAD = count_if_state l DEAD := by
  intro l
  induction l with
  | nil => intro r; rfl
  | cons a rest ih =>
      intro r
      by_cases he : elig a = true
      · simp only [bern_map, if_pos he]
        simp only [count_if_state, List.countP_cons]
        have hih := ih ((rng_double r).2)
        simp only [count_if_state] at hih
        rw [hih]
        congr 1
        split
        · rw [beq_eq_false_iff_ne.mpr htgt, beq_eq_false_iff_ne.mpr (hel a he)]
        · rfl
      · simp only [bern_map, if_neg he]
        simp only [count_if_state, List.countP_cons]
        have hih := ih r
        simp only [count_if_state] at hih
        rw [hih]

theorem die_loop_count_dead (ps pI : ℚ) :
    ∀ (l : List agent_t) (r : rng_t),
      count_if_state l DEAD + (die_loop ps pI l r).2.2 ≤
        count_if_state (die_loop ps pI l r).1 DEAD := by
  intro l
  induction l with
  | nil => intro r; simp [die_loop, count_if_state]
  | cons a rest ih =>
      intro r
      simp only [die_loop]
      split
      · rename_i hS
        have ha : (a.state == DEAD) = false := by rw [hS]; rfl
        have hih := ih ((rng_double r).2)
        simp only [count_if_state] at hih
        by_cases hd : (rng_double r).1 < ps
        · simp [count_if_state, List.countP_cons, ha, hd]
          omega
        · simp [count_if_state, List.countP_cons, ha, hd]
          omega
      · split
        · rename_i hNS hI
          have ha : (a.state == DEAD) = false := by rw [hI]; rfl
          have hih := ih ((rng_double r).2)
          simp only [count_if_state] at hih
          by_cases hd : (rng_double r).1 < pI
          · simp [count_if_state, List.countP_cons, ha, hd]
            omega
          · simp [count_if_state, List.countP_cons, ha, hd]
            omega
        · rename_i hNS hNI
          have hih := ih r
          simp only [count_if_state] at hih
          simp only [count_if_state, List.countP_cons]
          omega

theorem infect_one_loop_count_dead (k : Nat) :
    ∀ s, count_if_state (infect_one_loop k s).agents DEAD =
      count_if_state s.agents DEAD := by
  induction k with
  | zero => intro s; rfl
  | succ k ih =>
      intro s
      simp only [infect_one_loop]
      split
      · rename_i hcond
        rw [ih]
        show count_if_state (s.agents.set _ _) DEAD = _
        refine count_dead_set s.agents _ _ ?_ (fun hc => state_t.noConfusion hc)
        intro hlt
        have hsub := hcond.1
        rw [List.getD_eq_getElem s.agents default hlt] at hsub
        rw [hsub]
        decide
      · split
        · rename_i hcond
          rw [ih]
          show count_if_state (s.agents.set _ _) DEAD = _
          refine count_dead_set s.agents _ _ ?_ (fun hc => state_t.noConfusion hc)
          intro hlt
          have hsub := hcond.2
          rw [List.getD_eq_getElem s.agents default hlt] at hsub
          rw [hsub]
          decide
        · rw [ih]

theorem infect_one_loop_TID (k : Nat) :
    ∀ s, (infect_one_loop k s).infection_deaths = s.infection_deaths := by
  induction k with
  | zero => intro s; rfl
  | succ k ih =>
      intro s
      simp only [infect_one_loop, ih]
      split
      · rfl
      · split <;> rfl

theorem grow_count_dead (s : simulation_t) :
    count_if_state (grow s).agents DEAD = count_if_state s.agents DEAD := by
  show count_if_state (s.agents ++ _) DEAD = _
  simp only [count_if_state, List.countP_append]
  have hz : List.countP (fun a => a.state == DEAD)
      ((List.range ((roundC (s.parameters.growth *
        (count_if_not_state s.agents DEAD : ℚ))).toNat)).map
        (fun k => new_agent (s.agents.length + k) SUSCEPTIBLE)) = 0 := by
    rw [List.countP_eq_zero]
    intro a ha
    obtain ⟨k, _, rfl⟩ := List.mem_map.mp ha
    simp [new_agent]
  rw [hz]
  omega

theorem recover_count_dead (s : simulation_t) :
    count_if_state (recover s).agents DEAD = count_if_state s.agents DEAD :=
  bern_map_count_dead _ _ _
    (fun a h => by rw [eq_of_beq h]; decide) (by decide) s.agents s.rng

theorem vaccinate_count_dead (s : simulation_t) :
    count_if_state (vaccinate s).agents DEAD = count_if_state s.agents DEAD :=
  bern_map_count_dead _ _ _
    (fun a h => by rw [eq_of_beq h]; decide) (by decide) s.agents s.rng

theorem susceptible_count_dead (s : simulation_t) :
    count_if_state (susceptible s).agents DEAD = count_if_state s.agents DEAD :=
  bern_map_count_dead _ _ _
    (fun a h => by
      intro hc
      rw [hc] at h
      exact absurd h (by decide))
    (by decide) s.agents s.rng

theorem sort_agents_count_dead (s : simulation_t) :
    count_if_state (sort_agents s).agents DEAD = count_if_state s.agents DEAD :=
  (List.mergeSort_perm s.agents _).countP_eq _

theorem die_dead_inv (s : simulation_t)
    (hinv : s.infection_deaths ≤ count_if_state s.agents DEAD) :
    (die s).infection_deaths ≤ count_if_state (die s).agents DEAD := by
  have h := die_loop_count_dead s.parameters.death_prob_susceptible
    s.parameters.death_prob_infectious s.agents s.rng
  show s.infection_deaths +
    (die_loop s.parameters.death_prob_susceptible
      s.parameters.death_prob_infectious s.agents s.rng).2.2 ≤
    count_if_state (die_loop s.parameters.death_prob_susceptible
      s.parameters.death_prob_infectious s.agents s.rng).1 DEAD
  omega

theorem loop_step_dead_inv (i : Nat) (s : simulation_t)
    (hm : uses_method_one s.identity s.parameters)
    (hinv : s.infection_deaths ≤ count_if_state s.agents DEAD) :
    (loop_step i s).infection_deaths ≤
      count_if_state (loop_step i s).agents DEAD := by
  have hc2 : count_if_state (infect (grow s)).agents DEAD
      = count_if_state s.agents DEAD := by
    rw [infect_eq_method_one (grow s) hm]
    simp only [infect_method_one]
    rw [infect_one_loop_count_dead]
    exact grow_count_dead s
  have htid2 : (infect (grow s)).infection_deaths = s.infection_deaths := by
    rw [infect_eq_method_one (grow s) hm]
    simp only [infect_method_one]
    rw [infect_one_loop_TID]
    rfl
  have hc5 : count_if_state
      (susceptible (vaccinate (recover (infect (grow s))))).agents DEAD
      = count_if_state s.agents DEAD := by
    rw [susceptible_count_dead, vaccinate_count_dead, recover_count_dead, hc2]
  have hinv5 : (susceptible (vaccinate (recover (infect (grow s))))).infection_deaths
      ≤ count_if_state
        (susceptible (vaccinate (recover (infect (grow s))))).agents DEAD := by
    rw [hc5]
    show (infect (grow s)).infection_deaths ≤ count_if_state s.agents DEAD
    rw [htid2]
    exact hinv
  have h6 := die_dead_inv _ hinv5
  simp only [loop_step, do_events]
  split
  · simp only [report_effect]
    split
    · rw [sort_agents_count_dead]
      exact h6
    · exact h6
  · exact h6

/-- C5 (amended): on every run whose replica uses infection method A on each
tick (selector `ONE`, or `BOTH` with even identity), `infection_deaths` is at
most the number of currently Dead agents at the end of every tick, and hence
at every reporting point.  (Under method B the revival of Dead agents can
push the dead count below `infection_deaths`; see the counterexample.) -/
theorem C5_infection_deaths_le_dead (identity : Nat) (p : parameters_t)
    (hm : uses_method_one identity p) (t : Nat) :
    (run_ticks (new_simulation identity p) t).infection_deaths ≤
      count_if_state (run_ticks (new_simulation identity p) t).agents DEAD := by
  induction t with
  | zero => exact Nat.zero_le _
  | succ t ih =>
      rw [run_ticks]
      refine loop_step_dead_inv t _ ?_ ih
      rw [run_ticks_identity, run_ticks_parameters]
      exact hm

/-- Witness for the amended C5 at the method-ONE replica (0, pOne), tick 1. -/
theorem C5_infection_deaths_le_dead_witness :
    (run_ticks (new_simulation 0 pOne) 1).infection_deaths ≤
      count_if_state (run_ticks (new_simulation 0 pOne) 1).agents DEAD :=
  C5_infection_deaths_le_dead 0 pOne (Or.inl rfl) 1

theorem get_indices_go_eq (st : state_t) (max : Nat) :
    ∀ (l : List agent_t) (i : Nat),
      get_indices_go st max i l =
        (((l.take (max - i)).enumFrom i).filter
          (fun ia => ia.2.state == st)).map Prod.fst := by
  intro l
  induction l with
  | nil => intro i; simp [get_indices_go]
  | cons a rest ih =>
      intro i
      by_cases h : max ≤ i
      · simp [get_indices_go, h, Nat.sub_eq_zero_of_le h]
      · have hsub : max - i = (max - (i + 1)) + 1 := by omega
        simp only [get_indices_go, if_neg h]
        rw [hsub, List.take_succ_cons]
        by_cases hst : a.state = st
        · rw [if_pos hst, ih (i + 1)]
          simp [List.filter_cons, hst]
        · rw [if_neg hst, ih (i + 1)]
          simp [List.filter_cons, hst]

/-- C4 (amended): the scan of `get_indices` examines only the first
`min encounters size` positions of the population (so it is clamped and
cannot fault), and collects, in order, exactly the indices among those
positions whose agent is in the requested state — it does not keep scanning
until `encounters` indices have been collected. -/
theorem C4_get_indices_characterization (l : List agent_t) (st : state_t) (max : Nat) :
    get_indices l st max =
      ((l.take max).enum.filter (fun ia => ia.2.state == st)).map Prod.fst ∧
    (get_indices l st max).length ≤ min max l.length := by
  have h := get_indices_go_eq st max l 0
  rw [Nat.sub_zero] at h
  constructor
  · rw [get_indices, h]
    rfl
  · rw [get_indices, h, List.length_map]
    have h1 := List.length_filter_le
      (fun ia : Nat × agent_t => ia.2.state == st) ((l.take max).enumFrom 0)
    rw [List.enumFrom_length, List.length_take] at h1
    exact h1

theorem loop_lines_no_header (s : simulation_t) :
    ∀ t, (loop_lines s t).countP is_header = 0 := by
  intro t
  induction t with
  | zero => rfl
  | succ t ih =>
      rw [loop_lines, List.countP_append, ih]
      simp only [loop_emit]
      split
      · rfl
      · rfl

/-- C9: the CSV header is emitted exactly once by the replica with identity
0, before its tick-0 tally row; a replica with nonzero identity never emits
the header, and its first line is its tick-0 tally row. -/
theorem C9_header_only_replica_zero (identity : Nat) (p : parameters_t) :
    ((simulate_lines (new_simulation identity p)).countP is_header
        = if identity = 0 then 1 else 0) ∧
    (identity = 0 →
      (simulate_lines (new_simulation identity p)).head? = some line_t.header ∧
      (simulate_lines (new_simulation identity p)).tail.head?
        = some (line_t.tally (report_line (new_simulation identity p) 0))) ∧
    (identity ≠ 0 →
      (simulate_lines (new_simulation identity p)).head?
        = some (line_t.tally (report_line (new_simulation identity p) 0))) := by
  have hid : (new_simulation identity p).identity = identity := rfl
  refine ⟨?_, ?_, ?_⟩
  · rw [simulate_lines, hid]
    by_cases h : identity = 0
    · rw [if_pos h, if_pos h]
      simp [List.countP_append, List.countP_cons, loop_lines_no_header, is_header]
    · rw [if_neg h, if_neg h]
      simp [List.countP_append, List.countP_cons, loop_lines_no_header, is_header]
  · intro h
    rw [simulate_lines, hid, if_pos h]
    exact ⟨rfl, rfl⟩
  · intro h
    rw [simulate_lines, hid, if_neg h]
    rfl

/-- Witness for C9 at the replicas (0, pOne) and (1, pOne). -/
theorem C9_header_only_replica_zero_witness :
    (simulate_lines (new_simulation 0 pOne)).head? = some line_t.header ∧
    (simulate_lines (new_simulation 1 pOne)).head?
      = some (line_t.tally (report_line (new_simulation 1 pOne) 0)) :=
  ⟨((C9_header_only_replica_zero 0 pOne).2.1 rfl).1,
   (C9_header_only_replica_zero 1 pOne).2.2 (by decide)⟩

end Abm
